import Mathlib

/-
Verification development for the GA4 relational pipeline
(src/ga4_relational_pipeline.py).

The pipeline's stateful parts (SQLite tables) are embedded as explicit
state passing over a `DB` record; stored TEXT values are `List Char`;
fallible Python code (KeyError / IndexError / ValueError / sqlite errors)
is embedded with `Option` / `Except`.  Environment failures that the
source only observes as exceptions (a failing SQL statement, a failing
CSV export, a failing network call) are injected through explicit
parameters, so that every control path of the source is reachable in
the model.
-/

set_option maxRecDepth 4000

/-- Stored TEXT values and Python strings are modelled as lists of characters. -/
abbrev Str := List Char

/-- SQLite BINARY collation: bytewise (for ASCII, codepoint-wise) strict
lexicographic comparison, used by `MAX(date)` over the TEXT column. -/
def lexLt : Str → Str → Bool
  | _, [] => false
  | [], _ :: _ => true
  | a :: as, b :: bs =>
    if a.toNat < b.toNat then true
    else if b.toNat < a.toNat then false
    else lexLt as bs

/-- SQLite `SELECT MAX(date) FROM dates`: `none` on an empty table, else the
maximum stored string under the BINARY collation. -/
def sqlMax : List Str → Option Str
  | [] => none
  | s :: rest => some (rest.foldl (fun acc t => if lexLt acc t then t else acc) s)

/-- A Python `datetime.date`-like value: year, month, day. -/
structure Date where
  y : Nat
  m : Nat
  d : Nat
deriving DecidableEq

/-- Gregorian leap-year rule (as in Python's `datetime`). -/
def isLeap (y : Nat) : Bool := (y % 4 = 0 && y % 100 != 0) || y % 400 = 0

/-- Number of days in a month (as in Python's `datetime`). -/
def daysInMonth (y m : Nat) : Nat :=
  if m = 2 then (if isLeap y then 29 else 28)
  else if m = 4 || m = 6 || m = 9 || m = 11 then 30
  else 31

/-- Validity check performed by `datetime.date(y, m, d)` (MINYEAR = 1,
MAXYEAR = 9999). -/
def validDate (y m d : Nat) : Bool :=
  1 ≤ y && y ≤ 9999 && 1 ≤ m && m ≤ 12 && 1 ≤ d && d ≤ daysInMonth y m

/-- Numeric key `yyyymmdd` of a date; for valid dates, comparison of keys
coincides with Python `date` comparison. -/
def dateKey (a : Date) : Nat := a.y * 10000 + a.m * 100 + a.d

/-- Python `date` strict comparison (tuple comparison on (y, m, d)). -/
def dateLt (a b : Date) : Bool :=
  a.y < b.y || (a.y = b.y && (a.m < b.m || (a.m = b.m && a.d < b.d)))

/-- Decimal digit character for `n < 10`. -/
def dc (n : Nat) : Char := Char.ofNat (48 + n)

/-- Two-digit zero-padded decimal rendering (`%02d`). -/
def pad2 (n : Nat) : Str := [dc (n / 10), dc (n % 10)]

/-- Four-digit zero-padded decimal rendering (`%04d`). -/
def pad4 (n : Nat) : Str := [dc (n / 1000), dc (n / 100 % 10), dc (n / 10 % 10), dc (n % 10)]

/-- Canonical hyphenated encoding `YYYY-MM-DD` of a date (the format
produced by `strftime('%Y-%m-%d')` and by the normalizer). -/
def hyphenEnc (a : Date) : Str := pad4 a.y ++ '-' :: (pad2 a.m ++ '-' :: pad2 a.d)

/-- Legacy compact encoding `YYYYMMDD` of a date. -/
def compactEnc (a : Date) : Str := pad4 a.y ++ pad2 a.m ++ pad2 a.d

/-- Numeric value of a decimal digit character, `none` otherwise
(the `\d` character class of CPython's `_strptime` regexes). -/
def digitVal (c : Char) : Option Nat :=
  if 48 ≤ c.toNat && c.toNat ≤ 57 then some (c.toNat - 48) else none

/-- CPython `_strptime` directive `%Y`: exactly four decimal digits. -/
def pY : Str → Option (Nat × Str)
  | a :: b :: c :: d :: r =>
    match digitVal a, digitVal b, digitVal c, digitVal d with
    | some w, some x, some y, some z => some (1000 * w + 100 * x + 10 * y + z, r)
    | _, _, _, _ => none
  | _ => none

/-- Consume one expected literal character of the format string. -/
def expectChar (c : Char) : Str → Option Str
  | x :: r => if x = c then some r else none
  | [] => none

/-- CPython `_strptime` directive `%m`, regex `1[0-2]|0[1-9]|[1-9]`:
the candidate matches in alternation order (the regex engine backtracks
through them). -/
def pMonthAlts (s : Str) : List (Nat × Str) :=
  (match s with
   | c1 :: c2 :: r =>
     if c1.toNat = 49 && 48 ≤ c2.toNat && c2.toNat ≤ 50
     then [(10 + (c2.toNat - 48), r)] else []
   | _ => []) ++
  (match s with
   | c1 :: c2 :: r =>
     if c1.toNat = 48 && 49 ≤ c2.toNat && c2.toNat ≤ 57
     then [(c2.toNat - 48, r)] else []
   | _ => []) ++
  (match s with
   | c1 :: r =>
     if 49 ≤ c1.toNat && c1.toNat ≤ 57 then [(c1.toNat - 48, r)] else []
   | _ => [])

/-- CPython `_strptime` directive `%d`, regex `3[01]|[12]\d|0[1-9]|[1-9]`:
the candidate matches in alternation order. -/
def pDayAlts (s : Str) : List (Nat × Str) :=
  (match s with
   | c1 :: c2 :: r =>
     if c1.toNat = 51 && 48 ≤ c2.toNat && c2.toNat ≤ 49
     then [(30 + (c2.toNat - 48), r)] else []
   | _ => []) ++
  (match s with
   | c1 :: c2 :: r =>
     if 49 ≤ c1.toNat && c1.toNat ≤ 50 && 48 ≤ c2.toNat && c2.toNat ≤ 57
     then [(10 * (c1.toNat - 48) + (c2.toNat - 48), r)] else []
   | _ => []) ++
  (match s with
   | c1 :: c2 :: r =>
     if c1.toNat = 48 && 49 ≤ c2.toNat && c2.toNat ≤ 57
     then [(c2.toNat - 48, r)] else []
   | _ => []) ++
  (match s with
   | c1 :: r =>
     if 49 ≤ c1.toNat && c1.toNat ≤ 57 then [(c1.toNat - 48, r)] else []
   | _ => [])

/-- Model of `datetime.strptime(s, '%Y-%m-%d').date()`: the regex must match
the whole string (backtracking through the `%m`/`%d` alternatives), and the
matched numbers must form a valid `datetime.date`.  `none` models the
`ValueError` the source catches. -/
def parseHyphen (s : Str) : Option Date :=
  (pY s).bind fun yr =>
  (expectChar '-' yr.2).bind fun r2 =>
  (pMonthAlts r2).findSome? fun mr =>
  (expectChar '-' mr.2).bind fun r4 =>
  (pDayAlts r4).findSome? fun dr =>
  if dr.2 = [] && validDate yr.1 mr.1 dr.1 then some ⟨yr.1, mr.1, dr.1⟩ else none

/-- Model of `datetime.strptime(s, '%Y%m%d').date()` (the legacy-format
fallback branch of `get_last_date`). -/
def parseCompact (s : Str) : Option Date :=
  (pY s).bind fun yr =>
  (pMonthAlts yr.2).findSome? fun mr =>
  (pDayAlts mr.2).findSome? fun dr =>
  if dr.2 = [] && validDate yr.1 mr.1 dr.1 then some ⟨yr.1, mr.1, dr.1⟩ else none

/-- Model of `get_last_date()` (src lines 288-311).  The `dates` argument is
the dimension table as a list of `(date_id, date)` rows; `storageFail`
injects an exception from `cursor.execute` (the `except` clause turns any
such failure, and any `ValueError` from both `strptime` attempts, into
`None`). -/
def get_last_date (storageFail : Bool) (dates : List (Nat × Str)) : Option Date :=
  if storageFail then none
  else
    match sqlMax (dates.map (fun e => e.2)) with
    | none => none
    | some s =>
      match parseHyphen s with
      | some d => some d
      | none =>
        match parseCompact s with
        | some d => some d
        | none => none

instance {ε α : Type} [DecidableEq ε] [DecidableEq α] : DecidableEq (Except ε α) := fun a b =>
  match a, b with
  | .ok x, .ok y => if h : x = y then .isTrue (by rw [h]) else .isFalse (by simp [h])
  | .error x, .error y => if h : x = y then .isTrue (by rw [h]) else .isFalse (by simp [h])
  | .ok _, .error _ => .isFalse (by simp)
  | .error _, .ok _ => .isFalse (by simp)

/-- One raw row of a `run_report` response: ordered dimension values and
ordered metric values, all strings. -/
structure GARow where
  dimension_values : List Str
  metric_values : List Str
deriving DecidableEq

/-- The three raw category responses returned by the GA4 client within one
`fetch_ga4_data` call. -/
structure RawData where
  users : List GARow
  content : List GARow
  site : List GARow
deriving DecidableEq

/-- Exceptions observable during normalization: `row.dimension_values[0]` /
`row.metric_values[i]` out of range raise IndexError; `int(...)` /
`float(...)` on a non-numeric string raise ValueError. -/
inductive NormErr where
  | indexError
  | valueError
deriving DecidableEq

/-- Model of Python `int(s)` restricted to the decimal-literal strings the
GA4 API emits: optional sign followed by one or more digits. -/
def pInt (s : Str) : Option Int :=
  match s with
  | '-' :: r =>
    if r ≠ [] && r.all Char.isDigit
    then some (-(Nat.ofDigits 10 ((r.map (fun c => c.toNat - 48)).reverse) : Int))
    else none
  | _ =>
    if s ≠ [] && s.all Char.isDigit
    then some ((Nat.ofDigits 10 ((s.map (fun c => c.toNat - 48)).reverse) : Int))
    else none

/-- Model of Python `float(s)` restricted to the plain decimal literals
the GA4 API emits (optional sign, digits, optional fractional part); the
value is kept exactly as a rational. -/
def pFloat (s : Str) : Option Rat :=
  let core : Str → Option Rat := fun t =>
    let ip := t.takeWhile Char.isDigit
    let rest := t.dropWhile Char.isDigit
    let natVal : Str → Nat := fun u => Nat.ofDigits 10 ((u.map (fun c => c.toNat - 48)).reverse)
    match rest with
    | [] => if ip ≠ [] then some (mkRat (natVal ip) 1) else none
    | '.' :: fr =>
      if fr.all Char.isDigit && (ip ≠ [] || fr ≠ [])
      then some (mkRat (natVal ip * 10 ^ fr.length + natVal fr) (10 ^ fr.length))
      else none
    | _ => none
  match s with
  | '-' :: r => (core r).map Rat.neg
  | _ => core s

/-- Model of the date reformatting in `process_response` (src line 175):
`f"{ga4_date[:4]}-{ga4_date[4:6]}-{ga4_date[6:8]}"`.  Python slicing is
total, so this never fails, whatever the shape of the input. -/
def formatGaDate (s : Str) : Str :=
  s.take 4 ++ '-' :: ((s.drop 4).take 2 ++ '-' :: (s.drop 6).take 2)

/-- Normalized engagement record (`type == 'user'` branch of
`process_response`). -/
structure URow where
  date : Str
  users : Int
  sessions : Int
  engagement_rate : Rat
  conversions : Int
  average_session_duration : Rat
deriving DecidableEq

/-- Normalized content record (`type == 'content'` branch). -/
structure CRow where
  date : Str
  page_title : Str
  page_views : Int
  sessions : Int
  engagement_rate : Rat
  session_duration : Rat
deriving DecidableEq

/-- Normalized site-search record (`type == 'site'` branch). -/
structure SRow where
  date : Str
  search_Term : Str
  clicks : Int
  impressions : Int
deriving DecidableEq

/-- List indexing as Python `xs[i]`: IndexError when out of range. -/
def pyGet (xs : List Str) (i : Nat) : Except NormErr Str :=
  match xs.get? i with
  | some x => .ok x
  | none => .error .indexError

/-- Coercion `int(xs[i])`. -/
def pyGetInt (xs : List Str) (i : Nat) : Except NormErr Int := do
  let s ← pyGet xs i
  match pInt s with
  | some n => pure n
  | none => .error .valueError

/-- Coercion `float(xs[i])`. -/
def pyGetFloat (xs : List Str) (i : Nat) : Except NormErr Rat := do
  let s ← pyGet xs i
  match pFloat s with
  | some q => pure q
  | none => .error .valueError

/-- Model of `process_response(response, 'user')` (src lines 171-202): one
record per raw row, date reformatted by slicing, metrics coerced by
position. -/
def processUser (rows : List GARow) : Except NormErr (List URow) :=
  rows.mapM fun row => do
    let ga4Date ← pyGet row.dimension_values 0
    let users ← pyGetInt row.metric_values 0
    let sessions ← pyGetInt row.metric_values 1
    let rate ← pyGetFloat row.metric_values 2
    let conversions ← pyGetInt row.metric_values 3
    let dur ← pyGetFloat row.metric_values 4
    pure ⟨formatGaDate ga4Date, users, sessions, rate, conversions, dur⟩

/-- Model of `process_response(response, 'content')`. -/
def processContent (rows : List GARow) : Except NormErr (List CRow) :=
  rows.mapM fun row => do
    let ga4Date ← pyGet row.dimension_values 0
    let title ← pyGet row.dimension_values 1
    let views ← pyGetInt row.metric_values 0
    let sessions ← pyGetInt row.metric_values 1
    let rate ← pyGetFloat row.metric_values 2
    let dur ← pyGetFloat row.metric_values 3
    pure ⟨formatGaDate ga4Date, title, views, sessions, rate, dur⟩

/-- Model of `process_response(response, 'site')`. -/
def processSite (rows : List GARow) : Except NormErr (List SRow) :=
  rows.mapM fun row => do
    let ga4Date ← pyGet row.dimension_values 0
    let term ← pyGet row.dimension_values 1
    let clicks ← pyGetInt row.metric_values 0
    let impressions ← pyGetInt row.metric_values 1
    pure ⟨formatGaDate ga4Date, term, clicks, impressions⟩

/-- The dict returned by `fetch_ga4_data`: three normalized DataFrames,
modelled as record lists (a DataFrame built from a non-empty list of dicts
has exactly the dicts' keys as columns; one built from an empty list has no
columns at all). -/
structure NormData where
  users : List URow
  content : List CRow
  site : List SRow
deriving DecidableEq

/-- Normalization of the three raw responses, in the order the source
builds its result dict (users, content, site). -/
def processAll (r : RawData) : Except NormErr NormData := do
  let u ← processUser r.users
  let c ← processContent r.content
  let s ← processSite r.site
  pure ⟨u, c, s⟩

/-- Row of `user_interaction` (without the AUTOINCREMENT `user_id`, which
no code path reads). -/
structure UFact where
  date_id : Nat
  users : Int
  sessions : Int
  engagement_rate : Rat
  conversions : Int
  average_session_duration : Rat
deriving DecidableEq

/-- Row of `content_metrics`.  Note the source inserts the normalized
`sessions` value into the `content_sessions` column. -/
structure CFact where
  date_id : Nat
  page_title : Str
  page_views : Int
  content_sessions : Int
  engagement_rate : Rat
  session_duration : Rat
deriving DecidableEq

/-- Row of `site_data`. -/
structure SFact where
  date_id : Nat
  search_Term : Str
  clicks : Int
  impressions : Int
deriving DecidableEq

/-- The SQLite database created by `init_db`: the `dates` dimension (rows
`(date_id, date)` in rowid order, with the AUTOINCREMENT counter) and the
three fact tables. -/
structure DB where
  dates : List (Nat × Str)
  datesNext : Nat
  user_interaction : List UFact
  content_metrics : List CFact
  site_data : List SFact
deriving DecidableEq

/-- The empty database produced by `init_db` on first run (AUTOINCREMENT
starts at 1). -/
def emptyDB : DB := ⟨[], 1, [], [], []⟩

/-- The `SELECT date_id FROM dates WHERE date = ?` + `fetchone()` step of
`get_or_create_date_id`: the first matching row in rowid order, if any. -/
def lookupDateId (dates : List (Nat × Str)) (s : Str) : Option Nat :=
  (dates.find? (fun e => e.2 = s)).map (fun e => e.1)

/-- Model of `get_or_create_date_id(date_str)` (src lines 97-120).  It runs
on its own connection and commits its insert immediately, so its effect on
`dates` is applied to the state directly, independently of the writer's
transaction.  Returns `(date_id, new state)`. -/
def get_or_create_date_id (db : DB) (s : Str) : Nat × DB :=
  match lookupDateId db.dates s with
  | some i => (i, db)
  | none =>
    (db.datesNext,
     { db with dates := db.dates ++ [(db.datesNext, s)], datesNext := db.datesNext + 1 })

/-- The date-resolution loop of `save_data` (src lines 226-229): resolve
every distinct date, building the `date_map` association list. -/
def resolveAll (db : DB) : List Str → List (Str × Nat) × DB
  | [] => ([], db)
  | s :: rest =>
    let r := get_or_create_date_id db s
    let m := resolveAll r.2 rest
    ((s, r.1) :: m.1, m.2)

/-- Exceptions observable inside `save_data`'s `try` block. -/
inductive SaveErr where
  | keyError    -- `df['date']` on a column-less DataFrame, or `date_map[...]`
  | sqlError    -- an injected storage failure on a fact INSERT
  | exportError -- an injected failure of the post-commit `to_csv` export
deriving DecidableEq

/-- The `df['date'].unique()` step for one category DataFrame: a DataFrame
built from an empty record list has no `date` column, so the column access
raises KeyError; otherwise the distinct dates in first-appearance order. -/
def dfDates {α : Type} (dateOf : α → Str) (rows : List α) : Except SaveErr (List Str) :=
  if rows.isEmpty then .error .keyError
  else .ok ((rows.map dateOf).dedup)

/-- The `all_dates` collection loop of `save_data` (src lines 221-223), in
dict order (users, content, site).  `all_dates` is a Python set; it is
modelled as a deduplicated list (the set's iteration order is arbitrary in
the source, so a canonical order is chosen). -/
def collectDates (data : NormData) : Except SaveErr (List Str) :=
  match dfDates URow.date data.users with
  | .error e => .error e
  | .ok u =>
    match dfDates CRow.date data.content with
    | .error e => .error e
    | .ok c =>
      match dfDates SRow.date data.site with
      | .error e => .error e
      | .ok s => .ok ((u ++ c ++ s).dedup)

/-- The `date_map[row['date']]` lookup: KeyError when absent. -/
def mapLookup (dm : List (Str × Nat)) (s : Str) : Except SaveErr Nat :=
  match dm.find? (fun e => e.1 = s) with
  | some e => .ok e.2
  | none => .error .keyError

/-- The user-data insert loop of `save_data` (src lines 232-244), executing
inside the writer's transaction: `pending` accumulates the not-yet-committed
rows, `ctr` counts fact INSERT statements so far, and `failAt` injects a
storage failure on the statement with that index. -/
def insertU (dm : List (Str × Nat)) (failAt : Option Nat) :
    List URow → List UFact → Nat → Except SaveErr (List UFact × Nat)
  | [], pending, ctr => .ok (pending, ctr)
  | r :: rest, pending, ctr =>
    match mapLookup dm r.date with
    | .error e => .error e
    | .ok i =>
      let row : UFact := ⟨i, r.users, r.sessions, r.engagement_rate, r.conversions,
                          r.average_session_duration⟩
      if failAt = some ctr then .error .sqlError
      else insertU dm failAt rest (pending ++ [row]) (ctr + 1)

/-- The content-data insert loop of `save_data` (src lines 247-259). -/
def insertC (dm : List (Str × Nat)) (failAt : Option Nat) :
    List CRow → List CFact → Nat → Except SaveErr (List CFact × Nat)
  | [], pending, ctr => .ok (pending, ctr)
  | r :: rest, pending, ctr =>
    match mapLookup dm r.date with
    | .error e => .error e
    | .ok i =>
      let row : CFact := ⟨i, r.page_title, r.page_views, r.sessions, r.engagement_rate,
                          r.session_duration⟩
      if failAt = some ctr then .error .sqlError
      else insertC dm failAt rest (pending ++ [row]) (ctr + 1)

/-- The site-data insert loop of `save_data` (src lines 262-272). -/
def insertS (dm : List (Str × Nat)) (failAt : Option Nat) :
    List SRow → List SFact → Nat → Except SaveErr (List SFact × Nat)
  | [], pending, ctr => .ok (pending, ctr)
  | r :: rest, pending, ctr =>
    match mapLookup dm r.date with
    | .error e => .error e
    | .ok i =>
      let row : SFact := ⟨i, r.search_Term, r.clicks, r.impressions⟩
      if failAt = some ctr then .error .sqlError
      else insertS dm failAt rest (pending ++ [row]) (ctr + 1)

/-- Model of `save_data(data)` (src lines 214-286).  Returns the outcome of
the call together with the database state after it.  The date-resolution
loop mutates `dates` immediately (separate connection, committed per call);
the fact INSERTs are pending inside the writer's transaction until
`conn.commit()`, and any exception in the `try` block triggers
`conn.rollback()` (discarding only the pending fact rows) before the
exception propagates.  The CSV export runs inside the same `try` but after
the commit, so an export failure (`exportFail`) propagates while the fact
rows stay committed. -/
def save_data (failAt : Option Nat) (exportFail : Bool) (db : DB) (data : NormData) :
    Except SaveErr Unit × DB :=
  match collectDates data with
  | .error e => (.error e, db)
  | .ok allDates =>
    let rm := resolveAll db allDates
    let dm := rm.1
    let db1 := rm.2
    match insertU dm failAt data.users [] 0 with
    | .error e => (.error e, db1)
    | .ok (us, c1) =>
      match insertC dm failAt data.content [] c1 with
      | .error e => (.error e, db1)
      | .ok (cs, c2) =>
        match insertS dm failAt data.site [] c2 with
        | .error e => (.error e, db1)
        | .ok (ss, _) =>
          let db2 : DB :=
            { db1 with
              user_interaction := db1.user_interaction ++ us
              content_metrics := db1.content_metrics ++ cs
              site_data := db1.site_data ++ ss }
          if exportFail then (.error .exportError, db2) else (.ok (), db2)

/-- Calendar successor, the value of `d + timedelta(days=1)` for in-range
dates. -/
def nextDay (a : Date) : Date :=
  if a.d < daysInMonth a.y a.m then ⟨a.y, a.m, a.d + 1⟩
  else if a.m < 12 then ⟨a.y, a.m + 1, 1⟩
  else ⟨a.y + 1, 1, 1⟩

/-- Calendar predecessor, the value of `d - timedelta(days=1)` for in-range
dates. -/
def prevDay (a : Date) : Date :=
  if 1 < a.d then ⟨a.y, a.m, a.d - 1⟩
  else if 1 < a.m then ⟨a.y, a.m - 1, daysInMonth a.y (a.m - 1)⟩
  else ⟨a.y - 1, 12, 31⟩

/-- Value of `d - timedelta(days=n)` for in-range dates. -/
def subDays : Nat → Date → Date
  | 0, a => a
  | n + 1, a => subDays n (prevDay a)

/-- The start-date computation of `main` (src lines 325-328): the day after
the last ingested date if one exists, else 30 days before today. -/
def computeStart (lastDate : Option Date) (today : Date) : Date :=
  match lastDate with
  | some d => nextDay d
  | none => subDays 30 today

/-- The fetch-window decision of `main` (src lines 325-332): `none` means
the `start_date > end_date` early return (no fetch, successful exit);
otherwise the inclusive window passed to `fetch_ga4_data`. -/
def computeWindow (lastDate : Option Date) (today : Date) : Option (Date × Date) :=
  let s := computeStart lastDate today
  if dateLt today s then none else some (s, today)

/-- Model of the tenacity policy `stop_after_attempt(3)` wrapping
`fetch_ga4_data`: `f i` is the outcome of attempt `i` (`none` = the attempt
raised).  Returns the number of attempts made and the final outcome;
after the third failed attempt the error propagates. -/
def retry3 {α : Type} (f : Nat → Option α) : Nat × Option α :=
  match f 0 with
  | some a => (1, some a)
  | none =>
    match f 1 with
    | some a => (2, some a)
    | none =>
      match f 2 with
      | some a => (3, some a)
      | none => (3, none)

/-- One attempt of `fetch_ga4_data`: the network calls may fail
(`outcomes i = none`), and the in-fetch normalization of the three
responses may raise, which tenacity also treats as a failed attempt. -/
def fetchAttempt (outcomes : Nat → Option RawData) (i : Nat) : Option NormData :=
  (outcomes i).bind fun raw => (processAll raw).toOption

/-- Observable outcome of one `main()` run: the process exit code, the
number of attempts made against the GA4 API, whether `save_data` was
invoked, and the final database state. -/
structure PipeResult where
  exitCode : Nat
  fetchCalls : Nat
  saveInvoked : Bool
  db : DB
deriving DecidableEq

/-- Model of `main()` (src lines 315-349).  `gldFail` injects a storage
failure inside `get_last_date`; `outcomes` drives the fetch attempts;
`failAt` / `exportFail` inject writer failures.  `init_db` only creates
schema and is the identity on the modelled state.  Any exception reaching
`main`'s handler produces `exit(1)`; the early returns exit 0. -/
def mainModel (gldFail : Bool) (today : Date) (db : DB)
    (outcomes : Nat → Option RawData) (failAt : Option Nat) (exportFail : Bool) :
    PipeResult :=
  match computeWindow (get_last_date gldFail db.dates) today with
  | none => ⟨0, 0, false, db⟩
  | some _ =>
    match retry3 (fetchAttempt outcomes) with
    | (n, none) => ⟨1, n, false, db⟩
    | (n, some data) =>
      if data.users.isEmpty && data.content.isEmpty && data.site.isEmpty then
        ⟨0, n, false, db⟩
      else
        match save_data failAt exportFail db data with
        | (.ok _, db2) => ⟨0, n, true, db2⟩
        | (.error _, db2) => ⟨1, n, true, db2⟩

/-- Referential integrity: every fact row in each of the three fact tables
references a `date_id` present in the `dates` dimension. -/
def RI (db : DB) : Prop :=
  (∀ r ∈ db.user_interaction, ∃ e ∈ db.dates, e.1 = r.date_id)
  ∧ (∀ r ∈ db.content_metrics, ∃ e ∈ db.dates, e.1 = r.date_id)
  ∧ (∀ r ∈ db.site_data, ∃ e ∈ db.dates, e.1 = r.date_id)

/-- Concrete engagement record used as a test fixture. -/
def exURow : URow := ⟨"2024-01-01".toList, 100, 120, mkRat 11 20, 5, mkRat 423 10⟩

/-- Concrete content record used as a test fixture. -/
def exCRow : CRow := ⟨"2024-01-01".toList, "Home".toList, 300, 80, mkRat 1 2, mkRat 5 1⟩

/-- Concrete site-search record used as a test fixture. -/
def exSRow : SRow := ⟨"2024-01-01".toList, "shoes".toList, 10, 200⟩

/-- Concrete normalized dataset with one record per category. -/
def exData : NormData := ⟨[exURow], [exCRow], [exSRow]⟩

/-- Concrete raw engagement row whose normalization is `exURow`. -/
def exURaw : GARow :=
  ⟨["20240101".toList],
   ["100".toList, "120".toList, "0.55".toList, "5".toList, "42.3".toList]⟩

/-- Concrete raw content row whose normalization is `exCRow`. -/
def exCRaw : GARow :=
  ⟨["20240101".toList, "Home".toList],
   ["300".toList, "80".toList, "0.5".toList, "5.0".toList]⟩

/-- Concrete raw dataset with engagement and content rows but no
site-search rows. -/
def exRawNoSite : RawData := ⟨[exURaw], [exCRaw], []⟩

/-- C6: the slicing-based conversion in `process_response` turns the compact
8-digit encoding `"20240315"` into exactly `"2024-03-15"`, and in
`get_last_date` the canonical parser rejects `"20240315"` while the
legacy-format fallback branch parses it directly to March 15, 2024. -/
theorem C6_compact_date_conversion :
    formatGaDate ("20240315".toList) = "2024-03-15".toList
    ∧ parseHyphen ("20240315".toList) = none
    ∧ parseCompact ("20240315".toList) = some ⟨2024, 3, 15⟩
    ∧ get_last_date false [(1, "20240315".toList)] = some ⟨2024, 3, 15⟩ := by
  decide

/-- C9 counterexample: a malformed (4-digit) date value in a returned row
does not raise during normalization; `process_response` silently slices it
into the malformed string `"2024--"` and emits the record. -/
theorem C9_counterexample :
    processUser
        [⟨["2024".toList],
          ["100".toList, "120".toList, "0.55".toList, "5".toList, "42.3".toList]⟩]
      = .ok [⟨"2024--".toList, 100, 120, mkRat 11 20, 5, mkRat 423 10⟩] := by
  decide

/-- C9 amended: a missing date value (a row with no dimension values)
propagates as a fatal index error during normalization, but a malformed
date string does not raise: the slicing conversion is total, so for every
string `s` the row is emitted with date `formatGaDate s`. -/
theorem C9_amended_malformed_dates_silent :
    (∀ (mvs : List Str) (rest : List GARow),
        processUser (⟨[], mvs⟩ :: rest) = .error .indexError)
    ∧ (∀ s : Str,
        processUser
            [⟨[s], ["100".toList, "120".toList, "0.55".toList, "5".toList, "42.3".toList]⟩]
          = .ok [⟨formatGaDate s, 100, 120, mkRat 11 20, 5, mkRat 423 10⟩]) := by
  constructor
  · intro mvs rest
    rfl
  · intro s
    rfl

/-- C8: on a storage failure `get_last_date` returns `none`; on an empty
dimension it returns `none`; and on a stored maximum that both date
formats fail to parse it returns `none` — so the caller cannot distinguish
a soft failure from a genuinely empty dimension through the return value. -/
theorem C8_soft_failure_returns_none (dates : List (Nat × Str)) :
    get_last_date true dates = none
    ∧ get_last_date false [] = none
    ∧ (∀ (i : Nat) (s : Str), parseHyphen s = none → parseCompact s = none →
        get_last_date false [(i, s)] = none) := by
  refine ⟨rfl, rfl, ?_⟩
  intro i s h1 h2
  simp [get_last_date, sqlMax, h1, h2]

/-- C8 witness: instantiated at a stored value no format parses. -/
theorem C8_witness :
    get_last_date true [(1, "garbage".toList)] = none
    ∧ get_last_date false [] = none
    ∧ get_last_date false [(1, "garbage".toList)] = none :=
  ⟨(C8_soft_failure_returns_none [(1, "garbage".toList)]).1,
   (C8_soft_failure_returns_none []).2.1,
   (C8_soft_failure_returns_none []).2.2 1 ("garbage".toList) (by decide) (by decide)⟩

/-- C4: the fetch window starts the day after the last ingested date when
one exists, 30 calendar days before today otherwise; every computed window
ends at today; and when the computed start is after today the run performs
no fetch and no write and exits 0. -/
theorem C4_window_computation (gldFail : Bool) (today : Date) (db : DB)
    (outcomes : Nat → Option RawData) (failAt : Option Nat) (exportFail : Bool) :
    (∀ D : Date, computeStart (some D) today = nextDay D)
    ∧ computeStart none today = subDays 30 today
    ∧ (∀ l w, computeWindow l today = some w → w = (computeStart l today, today))
    ∧ (computeWindow (get_last_date gldFail db.dates) today = none →
        mainModel gldFail today db outcomes failAt exportFail = ⟨0, 0, false, db⟩) := by
  refine ⟨fun D => rfl, rfl, ?_, ?_⟩
  · intro l w h
    unfold computeWindow at h
    by_cases hc : dateLt today (computeStart l today) = true
    · simp [hc] at h
    · simp [hc] at h
      exact h.symm
  · intro h
    unfold mainModel
    rw [h]

/-- C4 witness: a dimension whose maximum equals today makes the computed
start (the day after) exceed today, and the run is a successful no-op. -/
theorem C4_witness :
    mainModel false ⟨2024, 3, 15⟩ ⟨[(1, "2024-03-15".toList)], 2, [], [], []⟩
        (fun _ => none) none false
      = ⟨0, 0, false, ⟨[(1, "2024-03-15".toList)], 2, [], [], []⟩⟩ :=
  (C4_window_computation false ⟨2024, 3, 15⟩ ⟨[(1, "2024-03-15".toList)], 2, [], [], []⟩
    (fun _ => none) none false).2.2.2 (by decide)

/-- C7: the retry wrapper makes at most 3 attempts; when all 3 attempts of
a fetch fail, the wrapper stops after exactly 3 attempts with a failure,
and the run ends with exit code 1 without `save_data` ever being invoked
and without touching the database. -/
theorem C7_retry_exhaustion (gldFail : Bool) (today : Date) (db : DB)
    (outcomes : Nat → Option RawData) (failAt : Option Nat) (exportFail : Bool)
    (hw : computeWindow (get_last_date gldFail db.dates) today ≠ none)
    (hfail : ∀ i, i < 3 → fetchAttempt outcomes i = none) :
    (∀ (α : Type) (g : Nat → Option α), (retry3 g).1 ≤ 3)
    ∧ retry3 (fetchAttempt outcomes) = (3, none)
    ∧ mainModel gldFail today db outcomes failAt exportFail = ⟨1, 3, false, db⟩ := by
  have h3 : retry3 (fetchAttempt outcomes) = (3, none) := by
    unfold retry3
    rw [hfail 0 (by omega), hfail 1 (by omega), hfail 2 (by omega)]
  refine ⟨?_, h3, ?_⟩
  · intro α g
    unfold retry3
    cases g 0 <;> cases g 1 <;> cases g 2 <;> simp
  · obtain ⟨w, hw2⟩ := Option.ne_none_iff_exists.mp hw
    unfold mainModel
    rw [← hw2, h3]

/-- C7 witness: every attempt fails against an empty dimension. -/
theorem C7_witness :
    mainModel false ⟨2024, 3, 15⟩ emptyDB (fun _ => none) none false
      = ⟨1, 3, false, emptyDB⟩ :=
  (C7_retry_exhaustion false ⟨2024, 3, 15⟩ emptyDB (fun _ => none) none false
    (by decide) (fun i _ => rfl)).2.2

/-- C3: resolving the same calendar date twice against the same dimension
state is idempotent — the second call finds the row the first call ensured
and returns the same surrogate identifier with the state unchanged — and
the resolver preserves uniqueness of calendar values in the dimension. -/
theorem C3_idempotent_date_resolution (db : DB) (s : Str) :
    get_or_create_date_id (get_or_create_date_id db s).2 s = get_or_create_date_id db s
    ∧ ((db.dates.map (fun e => e.2)).Nodup →
        (((get_or_create_date_id db s).2).dates.map (fun e => e.2)).Nodup) := by
  cases h : lookupDateId db.dates s with
  | some i =>
    have h1 : get_or_create_date_id db s = (i, db) := by
      unfold get_or_create_date_id
      rw [h]
    rw [h1]
    exact ⟨h1, fun hnd => hnd⟩
  | none =>
    have hfind : db.dates.find? (fun e => e.2 = s) = none := by
      unfold lookupDateId at h
      exact Option.map_eq_none'.mp h
    have hnotin : ∀ e ∈ db.dates, ¬(e.2 = s) := by
      intro e he
      have := List.find?_eq_none.mp hfind e he
      simpa using this
    have h1 : get_or_create_date_id db s =
        (db.datesNext,
         { db with dates := db.dates ++ [(db.datesNext, s)], datesNext := db.datesNext + 1 }) := by
      unfold get_or_create_date_id
      rw [h]
    have h2 : lookupDateId (db.dates ++ [(db.datesNext, s)]) s = some db.datesNext := by
      unfold lookupDateId
      rw [List.find?_append, hfind]
      simp
    constructor
    · rw [h1]
      unfold get_or_create_date_id
      rw [h2]
    · intro hnd
      rw [h1]
      simp only [List.map_append, List.map_cons, List.map_nil]
      rw [List.nodup_append]
      refine ⟨hnd, List.nodup_singleton _, ?_⟩
      intro a ha hb
      simp only [List.mem_singleton] at hb
      obtain ⟨e, he, hes⟩ := List.mem_map.mp ha
      exact hnotin e he (by rw [hes, hb])

/-- C3 witness: a fresh date resolved against the empty dimension. -/
theorem C3_witness :
    get_or_create_date_id
        (get_or_create_date_id emptyDB ("2024-01-01".toList)).2 ("2024-01-01".toList)
      = get_or_create_date_id emptyDB ("2024-01-01".toList)
    ∧ (((get_or_create_date_id emptyDB ("2024-01-01".toList)).2).dates.map
        (fun e => e.2)).Nodup :=
  ⟨(C3_idempotent_date_resolution emptyDB ("2024-01-01".toList)).1,
   (C3_idempotent_date_resolution emptyDB ("2024-01-01".toList)).2 (by decide)⟩

theorem gocd_facts_unchanged (db : DB) (s : Str) :
    (get_or_create_date_id db s).2.user_interaction = db.user_interaction
    ∧ (get_or_create_date_id db s).2.content_metrics = db.content_metrics
    ∧ (get_or_create_date_id db s).2.site_data = db.site_data := by
  unfold get_or_create_date_id
  cases lookupDateId db.dates s <;> simp

theorem resolveAll_facts_unchanged (l : List Str) (db : DB) :
    (resolveAll db l).2.user_interaction = db.user_interaction
    ∧ (resolveAll db l).2.content_metrics = db.content_metrics
    ∧ (resolveAll db l).2.site_data = db.site_data := by
  induction l generalizing db with
  | nil => exact ⟨rfl, rfl, rfl⟩
  | cons s rest ih =>
    have h1 := gocd_facts_unchanged db s
    have h2 := ih (get_or_create_date_id db s).2
    unfold resolveAll
    exact ⟨h2.1.trans h1.1, h2.2.1.trans h1.2.1, h2.2.2.trans h1.2.2⟩

/-- C1 counterexample: with one content row and a failing post-commit CSV
export, `save_data` raises (the error propagates) even though the fact
rows of that call are already committed — a step of `save_data` failed
after fact insertion began, yet the rows were not rolled back. -/
theorem C1_counterexample :
    (save_data none true emptyDB exData).1 = .error .exportError
    ∧ (save_data none true emptyDB exData).2.user_interaction ≠ emptyDB.user_interaction
    ∧ (save_data none true emptyDB exData).2.content_metrics ≠ emptyDB.content_metrics
    ∧ (save_data none true emptyDB exData).2.site_data ≠ emptyDB.site_data := by
  decide

/-- C1 amended: if a step of `save_data` fails before the final commit —
date collection, date resolution, or any engagement/content/site fact
INSERT (e.g. a content-category insert failing mid-save) — then the
transaction is rolled back, the error propagates, and no fact row from
that call is committed; only a failure of the post-commit CSV export
propagates with the fact rows already committed. -/
theorem C1_amended_precommit_atomicity (db : DB) (data : NormData)
    (failAt : Option Nat) (exportFail : Bool) (e : SaveErr)
    (herr : (save_data failAt exportFail db data).1 = .error e)
    (hpre : e ≠ .exportError) :
    (save_data failAt exportFail db data).2.user_interaction = db.user_interaction
    ∧ (save_data failAt exportFail db data).2.content_metrics = db.content_metrics
    ∧ (save_data failAt exportFail db data).2.site_data = db.site_data := by
  unfold save_data at herr ⊢
  cases hcd : collectDates data with
  | error e2 => simp [hcd]
  | ok ds =>
    have hrf := resolveAll_facts_unchanged ds db
    simp only [hcd] at herr ⊢
    cases hu : insertU (resolveAll db ds).1 failAt data.users [] 0 with
    | error e2 => simpa [hu] using hrf
    | ok p =>
      simp only [hu] at herr ⊢
      cases hc : insertC (resolveAll db ds).1 failAt data.content [] p.2 with
      | error e2 => simpa [hc] using hrf
      | ok q =>
        simp only [hc] at herr ⊢
        cases hs : insertS (resolveAll db ds).1 failAt data.site [] q.2 with
        | error e2 => simpa [hs] using hrf
        | ok w =>
          simp only [hs] at herr ⊢
          cases hex : exportFail with
          | false => simp [hex] at herr
          | true =>
            simp only [hex, if_true] at herr
            cases herr
            exact absurd rfl hpre

/-- C1 witness: an injected storage failure on the content-row INSERT
(statement index 1, after the engagement row) rolls back all fact rows. -/
theorem C1_witness :
    (save_data (some 1) false emptyDB exData).1 = .error .sqlError
    ∧ ((save_data (some 1) false emptyDB exData).2.user_interaction
          = emptyDB.user_interaction
       ∧ (save_data (some 1) false emptyDB exData).2.content_metrics
          = emptyDB.content_metrics
       ∧ (save_data (some 1) false emptyDB exData).2.site_data
          = emptyDB.site_data) :=
  ⟨by decide,
   C1_amended_precommit_atomicity emptyDB exData (some 1) false .sqlError
     (by decide) (by decide)⟩

/-- C10: when the fetch succeeds with at least one empty category DataFrame
(here site-search) while another is non-empty, the save is not skipped;
`save_data` raises a KeyError while collecting the distinct dates (the
empty DataFrame has no `date` column) before writing any dimension or fact
row, and the run exits with code 1 with the database untouched. -/
theorem C10_empty_category_aborts_save (gldFail : Bool) (today : Date) (db : DB)
    (outcomes : Nat → Option RawData) (failAt : Option Nat) (exportFail : Bool)
    (data : NormData)
    (hw : computeWindow (get_last_date gldFail db.dates) today ≠ none)
    (hfetch : fetchAttempt outcomes 0 = some data)
    (hsite : data.site = [])
    (husers : data.users ≠ []) :
    save_data failAt exportFail db data = (.error .keyError, db)
    ∧ mainModel gldFail today db outcomes failAt exportFail = ⟨1, 1, true, db⟩ := by
  have hu : data.users.isEmpty = false := by
    cases hd : data.users with
    | nil => exact absurd hd husers
    | cons a t => rfl
  have hcd : collectDates data = .error .keyError := by
    unfold collectDates dfDates
    rw [hsite, hu]
    cases hc : data.content.isEmpty <;> simp
  have hsd : save_data failAt exportFail db data = (.error .keyError, db) := by
    unfold save_data
    rw [hcd]
  refine ⟨hsd, ?_⟩
  obtain ⟨w, hw2⟩ := Option.ne_none_iff_exists.mp hw
  have hr3 : retry3 (fetchAttempt outcomes) = (1, some data) := by
    unfold retry3
    rw [hfetch]
  unfold mainModel
  rw [← hw2, hr3]
  simp only [hu, Bool.false_and, Bool.false_eq_true, if_false, hsd]

/-- C10 witness: a fetch returning engagement and content rows but zero
site-search rows aborts the save before any write and exits 1. -/
theorem C10_witness :
    save_data none false emptyDB ⟨[exURow], [exCRow], []⟩
      = (.error .keyError, emptyDB)
    ∧ mainModel false ⟨2024, 3, 15⟩ emptyDB (fun _ => some exRawNoSite) none false
      = ⟨1, 1, true, emptyDB⟩ :=
  C10_empty_category_aborts_save false ⟨2024, 3, 15⟩ emptyDB
    (fun _ => some exRawNoSite) none false ⟨[exURow], [exCRow], []⟩
    (by decide) (by decide) rfl (by decide)

theorem gocd_dates_mono (db : DB) (s : Str) :
    ∀ e ∈ db.dates, e ∈ (get_or_create_date_id db s).2.dates := by
  intro e he
  unfold get_or_create_date_id
  cases lookupDateId db.dates s <;> simp [he]

theorem gocd_id_mem (db : DB) (s : Str) :
    ∃ e ∈ (get_or_create_date_id db s).2.dates, e.1 = (get_or_create_date_id db s).1 := by
  unfold get_or_create_date_id
  cases h : lookupDateId db.dates s with
  | some i =>
    unfold lookupDateId at h
    obtain ⟨e0, hfind, he0⟩ := Option.map_eq_some'.mp h
    exact ⟨e0, List.mem_of_find?_eq_some hfind, he0⟩
  | none =>
    refine ⟨(db.datesNext, s), ?_, rfl⟩
    simp

theorem resolveAll_dates_mono (l : List Str) (db : DB) :
    ∀ e ∈ db.dates, e ∈ (resolveAll db l).2.dates := by
  induction l generalizing db with
  | nil => intro e he; exact he
  | cons s rest ih =>
    intro e he
    unfold resolveAll
    exact ih (get_or_create_date_id db s).2 e (gocd_dates_mono db s e he)

theorem resolveAll_map_ids (l : List Str) (db : DB) :
    ∀ pr ∈ (resolveAll db l).1, ∃ e ∈ (resolveAll db l).2.dates, e.1 = pr.2 := by
  induction l generalizing db with
  | nil => intro pr hpr; exact absurd hpr (by simp [resolveAll])
  | cons s rest ih =>
    intro pr hpr
    unfold resolveAll at hpr ⊢
    rcases List.mem_cons.mp hpr with hpr | hpr
    · obtain ⟨e, he, hei⟩ := gocd_id_mem db s
      refine ⟨e, resolveAll_dates_mono rest _ e he, ?_⟩
      rw [hei, hpr]
    · exact ih (get_or_create_date_id db s).2 pr hpr

theorem mapLookup_mem (dm : List (Str × Nat)) (s : Str) (i : Nat)
    (h : mapLookup dm s = .ok i) : ∃ pr ∈ dm, pr.2 = i := by
  unfold mapLookup at h
  cases hf : dm.find? (fun e => e.1 = s) with
  | none => rw [hf] at h; exact absurd h (by simp)
  | some e =>
    rw [hf] at h
    cases h
    exact ⟨e, List.mem_of_find?_eq_some hf, rfl⟩

theorem insertU_sound (dm : List (Str × Nat)) (failAt : Option Nat) :
    ∀ (rows : List URow) (pending : List UFact) (ctr : Nat) (p : List UFact × Nat),
      insertU dm failAt rows pending ctr = .ok p →
      ∀ f ∈ p.1, f ∈ pending ∨ ∃ pr ∈ dm, pr.2 = f.date_id := by
  intro rows
  induction rows with
  | nil =>
    intro pending ctr p h f hf
    unfold insertU at h
    cases h
    exact Or.inl hf
  | cons r rest ih =>
    intro pending ctr p h f hf
    unfold insertU at h
    cases hm : mapLookup dm r.date with
    | error e => simp only [hm] at h; exact absurd h (by simp)
    | ok i =>
      simp only [hm] at h
      by_cases hfa : failAt = some ctr
      · rw [if_pos hfa] at h; exact absurd h (by simp)
      · rw [if_neg hfa] at h
        rcases ih _ _ _ h f hf with hin | hex
        · rcases List.mem_append.mp hin with hin | hin
          · exact Or.inl hin
          · simp only [List.mem_singleton] at hin
            subst hin
            exact Or.inr (mapLookup_mem dm r.date i hm)
        · exact Or.inr hex

theorem insertC_sound (dm : List (Str × Nat)) (failAt : Option Nat) :
    ∀ (rows : List CRow) (pending : List CFact) (ctr : Nat) (p : List CFact × Nat),
      insertC dm failAt rows pending ctr = .ok p →
      ∀ f ∈ p.1, f ∈ pending ∨ ∃ pr ∈ dm, pr.2 = f.date_id := by
  intro rows
  induction rows with
  | nil =>
    intro pending ctr p h f hf
    unfold insertC at h
    cases h
    exact Or.inl hf
  | cons r rest ih =>
    intro pending ctr p h f hf
    unfold insertC at h
    cases hm : mapLookup dm r.date with
    | error e => simp only [hm] at h; exact absurd h (by simp)
    | ok i =>
      simp only [hm] at h
      by_cases hfa : failAt = some ctr
      · rw [if_pos hfa] at h; exact absurd h (by simp)
      · rw [if_neg hfa] at h
        rcases ih _ _ _ h f hf with hin | hex
        · rcases List.mem_append.mp hin with hin | hin
          · exact Or.inl hin
          · simp only [List.mem_singleton] at hin
            subst hin
            exact Or.inr (mapLookup_mem dm r.date i hm)
        · exact Or.inr hex

theorem insertS_sound (dm : List (Str × Nat)) (failAt : Option Nat) :
    ∀ (rows : List SRow) (pending : List SFact) (ctr : Nat) (p : List SFact × Nat),
      insertS dm failAt rows pending ctr = .ok p →
      ∀ f ∈ p.1, f ∈ pending ∨ ∃ pr ∈ dm, pr.2 = f.date_id := by
  intro rows
  induction rows with
  | nil =>
    intro pending ctr p h f hf
    unfold insertS at h
    cases h
    exact Or.inl hf
  | cons r rest ih =>
    intro pending ctr p h f hf
    unfold insertS at h
    cases hm : mapLookup dm r.date with
    | error e => simp only [hm] at h; exact absurd h (by simp)
    | ok i =>
      simp only [hm] at h
      by_cases hfa : failAt = some ctr
      · rw [if_pos hfa] at h; exact absurd h (by simp)
      · rw [if_neg hfa] at h
        rcases ih _ _ _ h f hf with hin | hex
        · rcases List.mem_append.mp hin with hin | hin
          · exact Or.inl hin
          · simp only [List.mem_singleton] at hin
            subst hin
            exact Or.inr (mapLookup_mem dm r.date i hm)
        · exact Or.inr hex

/-- C2: a successful `save_data` call preserves referential integrity —
every fact row (pre-existing or inserted by this call) references a
`date_id` present in the dates dimension, because each record's date is
resolved through `get_or_create_date_id` before the fact row is inserted
with the resolved identifier. -/
theorem C2_referential_integrity (db : DB) (data : NormData)
    (failAt : Option Nat) (exportFail : Bool) (h : RI db)
    (hok : (save_data failAt exportFail db data).1 = .ok ()) :
    RI (save_data failAt exportFail db data).2 := by
  unfold save_data at hok ⊢
  cases hcd : collectDates data with
  | error e => rw [hcd] at hok; exact absurd hok (by simp)
  | ok ds =>
    simp only [hcd] at hok ⊢
    have hrf := resolveAll_facts_unchanged ds db
    have hdm := resolveAll_map_ids ds db
    have hmono := resolveAll_dates_mono ds db
    cases hu : insertU (resolveAll db ds).1 failAt data.users [] 0 with
    | error e => rw [hu] at hok; exact absurd hok (by simp)
    | ok p =>
      simp only [hu] at hok ⊢
      cases hc : insertC (resolveAll db ds).1 failAt data.content [] p.2 with
      | error e => rw [hc] at hok; exact absurd hok (by simp)
      | ok q =>
        simp only [hc] at hok ⊢
        cases hs : insertS (resolveAll db ds).1 failAt data.site [] q.2 with
        | error e => rw [hs] at hok; exact absurd hok (by simp)
        | ok w =>
          simp only [hs] at hok ⊢
          cases hex : exportFail with
          | true => simp [hex] at hok
          | false =>
            simp only [hex, if_neg Bool.false_ne_true, Bool.false_eq_true, if_false]
            refine ⟨?_, ?_, ?_⟩
            · intro r hr
              rcases List.mem_append.mp hr with hr | hr
              · rw [hrf.1] at hr
                obtain ⟨e, he, hei⟩ := h.1 r hr
                exact ⟨e, hmono e he, hei⟩
              · rcases insertU_sound _ failAt data.users [] 0 p hu r hr with hin | hex2
                · exact absurd hin (List.not_mem_nil r)
                · obtain ⟨pr, hpr, hpri⟩ := hex2
                  obtain ⟨e, he, hei⟩ := hdm pr hpr
                  exact ⟨e, he, by rw [hei, hpri]⟩
            · intro r hr
              rcases List.mem_append.mp hr with hr | hr
              · rw [hrf.2.1] at hr
                obtain ⟨e, he, hei⟩ := h.2.1 r hr
                exact ⟨e, hmono e he, hei⟩
              · rcases insertC_sound _ failAt data.content [] p.2 q hc r hr with hin | hex2
                · exact absurd hin (List.not_mem_nil r)
                · obtain ⟨pr, hpr, hpri⟩ := hex2
                  obtain ⟨e, he, hei⟩ := hdm pr hpr
                  exact ⟨e, he, by rw [hei, hpri]⟩
            · intro r hr
              rcases List.mem_append.mp hr with hr | hr
              · rw [hrf.2.2] at hr
                obtain ⟨e, he, hei⟩ := h.2.2 r hr
                exact ⟨e, hmono e he, hei⟩
              · rcases insertS_sound _ failAt data.site [] q.2 w hs r hr with hin | hex2
                · exact absurd hin (List.not_mem_nil r)
                · obtain ⟨pr, hpr, hpri⟩ := hex2
                  obtain ⟨e, he, hei⟩ := hdm pr hpr
                  exact ⟨e, he, by rw [hei, hpri]⟩

/-- C2 witness: a successful save into the empty database yields a state
whose three fact rows all reference the single dimension row. -/
theorem C2_witness : RI (save_data none false emptyDB exData).2 :=
  C2_referential_integrity emptyDB exData none false
    (by simp [RI, emptyDB]) (by decide)

theorem dc_toNat : ∀ k, k < 10 → (dc k).toNat = 48 + k := by decide

theorem digitVal_dc : ∀ k, k < 10 → digitVal (dc k) = some k := by decide

theorem lexLt_dc_cons (p q : Nat) (hp : p < 10) (hq : q < 10) (u v : Str) :
    lexLt (dc p :: u) (dc q :: v) = true ↔ (p < q ∨ (p = q ∧ lexLt u v = true)) := by
  simp only [lexLt, dc_toNat p hp, dc_toNat q hq]
  split_ifs with h1 h2
  · exact iff_of_true rfl (Or.inl (by omega))
  · simp only [Bool.false_eq_true, false_iff]
    rintro (h | ⟨h, _⟩) <;> omega
  · have hpq : p = q := by omega
    subst hpq
    constructor
    · intro h
      exact Or.inr ⟨rfl, h⟩
    · rintro (h | ⟨_, h⟩)
      · omega
      · exact h

theorem lexLt_cons_same (c : Char) (u v : Str) : lexLt (c :: u) (c :: v) = lexLt u v := by
  simp [lexLt]

theorem lexLt_pad2_append (a b : Nat) (ha : a < 100) (hb : b < 100) (u v : Str) :
    lexLt (pad2 a ++ u) (pad2 b ++ v) = true ↔ (a < b ∨ (a = b ∧ lexLt u v = true)) := by
  have h1 := lexLt_dc_cons (a / 10) (b / 10) (by omega) (by omega)
    (dc (a % 10) :: u) (dc (b % 10) :: v)
  have h2 := lexLt_dc_cons (a % 10) (b % 10) (by omega) (by omega) u v
  simp only [pad2, List.cons_append, List.nil_append]
  rw [h1, h2]
  constructor
  · rintro (h | ⟨h, (h3 | ⟨h4, h5⟩)⟩)
    · left; omega
    · left; omega
    · exact Or.inr ⟨by omega, h5⟩
  · rintro (h | ⟨h, h5⟩)
    · by_cases hd : a / 10 < b / 10
      · exact Or.inl hd
      · exact Or.inr ⟨by omega, Or.inl (by omega)⟩
    · exact Or.inr ⟨by omega, Or.inr ⟨by omega, h5⟩⟩

theorem pad4_eq_pad2_pad2 (a : Nat) : pad4 a = pad2 (a / 100) ++ pad2 (a % 100) := by
  have e1 : a / 100 / 10 = a / 1000 := by rw [Nat.div_div_eq_div_mul]
  have e2 : a % 100 / 10 = a / 10 % 10 := by omega
  have e3 : a % 100 % 10 = a % 10 := by omega
  simp only [pad4, pad2, List.cons_append, List.nil_append, e1, e2, e3]

theorem lexLt_pad4_append (a b : Nat) (ha : a < 10000) (hb : b < 10000) (u v : Str) :
    lexLt (pad4 a ++ u) (pad4 b ++ v) = true ↔ (a < b ∨ (a = b ∧ lexLt u v = true)) := by
  rw [pad4_eq_pad2_pad2 a, pad4_eq_pad2_pad2 b, List.append_assoc, List.append_assoc]
  rw [lexLt_pad2_append (a / 100) (b / 100) (by omega) (by omega)]
  rw [lexLt_pad2_append (a % 100) (b % 100) (by omega) (by omega) u v]
  constructor
  · rintro (h | ⟨h, (h2 | ⟨h3, h4⟩)⟩)
    · left; omega
    · left; omega
    · exact Or.inr ⟨by omega, h4⟩
  · rintro (h | ⟨h, h4⟩)
    · by_cases hd : a / 100 < b / 100
      · exact Or.inl hd
      · exact Or.inr ⟨by omega, Or.inl (by omega)⟩
    · exact Or.inr ⟨by omega, Or.inr ⟨by omega, h4⟩⟩

theorem validDate_bounds (y m d : Nat) (h : validDate y m d = true) :
    1 ≤ y ∧ y ≤ 9999 ∧ 1 ≤ m ∧ m ≤ 12 ∧ 1 ≤ d ∧ d ≤ daysInMonth y m := by
  unfold validDate at h
  simp only [Bool.and_eq_true, decide_eq_true_eq] at h
  omega

theorem daysInMonth_le (y m : Nat) : daysInMonth y m ≤ 31 := by
  unfold daysInMonth
  split_ifs <;> omega

theorem lexLt_hyphenEnc (a b : Date)
    (ha : validDate a.y a.m a.d = true) (hb : validDate b.y b.m b.d = true) :
    lexLt (hyphenEnc a) (hyphenEnc b) = true ↔ dateKey a < dateKey b := by
  obtain ⟨ha1, ha2, ha3, ha4, ha5, ha6⟩ := validDate_bounds _ _ _ ha
  obtain ⟨hb1, hb2, hb3, hb4, hb5, hb6⟩ := validDate_bounds _ _ _ hb
  have ha7 := daysInMonth_le a.y a.m
  have hb7 := daysInMonth_le b.y b.m
  unfold hyphenEnc
  rw [lexLt_pad4_append _ _ (by omega) (by omega), lexLt_cons_same]
  rw [← List.append_nil (pad2 a.d), ← List.append_nil (pad2 b.d)]
  rw [lexLt_pad2_append _ _ (by omega) (by omega), lexLt_cons_same]
  rw [lexLt_pad2_append _ _ (by omega) (by omega)]
  simp only [lexLt, Bool.false_eq_true, and_false, or_false]
  unfold dateKey
  omega

theorem pY_pad4 (y : Nat) (hy : y < 10000) (r : Str) : pY (pad4 y ++ r) = some (y, r) := by
  simp only [pad4, List.cons_append, List.nil_append, pY]
  rw [digitVal_dc _ (by omega), digitVal_dc _ (by omega), digitVal_dc _ (by omega),
    digitVal_dc _ (by omega)]
  simp only [Option.some.injEq, Prod.mk.injEq]
  exact ⟨by omega, trivial⟩

theorem pMonthAlts_pad2 (m : Nat) (hm1 : 1 ≤ m) (hm2 : m ≤ 12) (r : Str) :
    ∃ tl, pMonthAlts (pad2 m ++ r) = (m, r) :: tl := by
  interval_cases m <;> exact ⟨_, rfl⟩

theorem pDayAlts_pad2 (d : Nat) (hd1 : 1 ≤ d) (hd2 : d ≤ 31) (r : Str) :
    ∃ tl, pDayAlts (pad2 d ++ r) = (d, r) :: tl := by
  interval_cases d <;> exact ⟨_, rfl⟩

theorem parseHyphen_hyphenEnc (a : Date) (hv : validDate a.y a.m a.d = true) :
    parseHyphen (hyphenEnc a) = some a := by
  obtain ⟨h1, h2, h3, h4, h5, h6⟩ := validDate_bounds _ _ _ hv
  have h7 := daysInMonth_le a.y a.m
  obtain ⟨tlm, htlm⟩ := pMonthAlts_pad2 a.m h3 h4 ('-' :: pad2 a.d)
  obtain ⟨tld, htld⟩ := pDayAlts_pad2 a.d h5 (by omega) []
  unfold parseHyphen hyphenEnc
  rw [pY_pad4 a.y (by omega), Option.some_bind]
  show (expectChar '-' ('-' :: (pad2 a.m ++ '-' :: pad2 a.d))).bind _ = some a
  rw [show expectChar '-' ('-' :: (pad2 a.m ++ '-' :: pad2 a.d))
      = some (pad2 a.m ++ '-' :: pad2 a.d) from rfl, Option.some_bind]
  rw [htlm, List.findSome?_cons]
  rw [show expectChar '-' ('-' :: pad2 a.d) = some (pad2 a.d) from rfl, Option.some_bind]
  rw [show pad2 a.d = pad2 a.d ++ [] by rw [List.append_nil], htld, List.findSome?_cons]
  simp only [List.append_nil]
  rw [if_pos]
  simp [hv]

theorem sqlMax_fold_hyphenEnc (l : List Date) (a : Date)
    (hva : validDate a.y a.m a.d = true)
    (hvl : ∀ x ∈ l, validDate x.y x.m x.d = true) :
    ∃ mx, (l.map hyphenEnc).foldl (fun acc t => if lexLt acc t then t else acc) (hyphenEnc a)
        = hyphenEnc mx
      ∧ validDate mx.y mx.m mx.d = true
      ∧ (mx = a ∨ mx ∈ l)
      ∧ dateKey a ≤ dateKey mx
      ∧ ∀ x ∈ l, dateKey x ≤ dateKey mx := by
  induction l generalizing a with
  | nil => exact ⟨a, rfl, hva, Or.inl rfl, le_refl _, by simp⟩
  | cons t rest ih =>
    have hvt : validDate t.y t.m t.d = true := hvl t (by simp)
    have hvrest : ∀ x ∈ rest, validDate x.y x.m x.d = true :=
      fun x hx => hvl x (List.mem_cons_of_mem t hx)
    simp only [List.map_cons, List.foldl_cons]
    by_cases hlt : lexLt (hyphenEnc a) (hyphenEnc t) = true
    · have hk : dateKey a < dateKey t := (lexLt_hyphenEnc a t hva hvt).mp hlt
      rw [if_pos hlt]
      obtain ⟨mx, hfold, hmxv, hmem, hle, hall⟩ := ih t hvt hvrest
      refine ⟨mx, hfold, hmxv, ?_, by omega, ?_⟩
      · rcases hmem with h | h
        · exact Or.inr (h ▸ List.mem_cons_self t rest)
        · exact Or.inr (List.mem_cons_of_mem t h)
      · intro x hx
        rcases List.mem_cons.mp hx with h | h
        · subst h
          exact hle
        · exact hall x h
    · have hk : ¬dateKey a < dateKey t := fun h =>
        hlt ((lexLt_hyphenEnc a t hva hvt).mpr h)
      rw [if_neg hlt]
      obtain ⟨mx, hfold, hmxv, hmem, hle, hall⟩ := ih a hva hvrest
      refine ⟨mx, hfold, hmxv, ?_, hle, ?_⟩
      · rcases hmem with h | h
        · exact Or.inl h
        · exact Or.inr (List.mem_cons_of_mem t h)
      · intro x hx
        rcases List.mem_cons.mp hx with h | h
        · subst h
          omega
        · exact hall x h

/-- C5 counterexample: with the two tolerated encodings mixed in the
dimension, `SELECT MAX(date)` compares TEXT bytewise, and the compact form
`"20240101"` exceeds `"2024-03-15"` (digit `'0'` sorts after `'-'`), so
`get_last_date` returns January 1, 2024 even though March 15, 2024 is
present: the result is not the maximum calendar value. -/
theorem C5_counterexample :
    get_last_date false [(1, "20240101".toList), (2, "2024-03-15".toList)]
      = some ⟨2024, 1, 1⟩
    ∧ parseCompact ("20240101".toList) = some ⟨2024, 1, 1⟩
    ∧ parseHyphen ("2024-03-15".toList) = some ⟨2024, 3, 15⟩
    ∧ dateLt ⟨2024, 1, 1⟩ ⟨2024, 3, 15⟩ = true := by
  decide

/-- C5 amended: `get_last_date` returns `none` exactly on the empty
dimension, and for every non-empty dimension whose rows all use the
canonical hyphenated encoding of valid dates it returns the maximum
calendar value present; when the dimension mixes the compact and the
hyphenated encodings, the bytewise TEXT `MAX` can pick a non-maximal
calendar value (see the counterexample). -/
theorem C5_amended_hyphen_dimension_max (entries : List (Nat × Date))
    (hv : ∀ e ∈ entries, validDate e.2.y e.2.m e.2.d = true) :
    (entries = [] →
      get_last_date false (entries.map (fun e => (e.1, hyphenEnc e.2))) = none)
    ∧ (entries ≠ [] →
      ∃ dmax,
        get_last_date false (entries.map (fun e => (e.1, hyphenEnc e.2))) = some dmax
        ∧ (∃ e ∈ entries, e.2 = dmax)
        ∧ ∀ e ∈ entries, dateKey e.2 ≤ dateKey dmax) := by
  constructor
  · intro h
    subst h
    rfl
  · intro hne
    cases hes : entries with
    | nil => exact absurd hes hne
    | cons e0 rest =>
      subst hes
      have hv0 : validDate e0.2.y e0.2.m e0.2.d = true := hv e0 (by simp)
      have hvrest : ∀ x ∈ rest.map (fun e => e.2), validDate x.y x.m x.d = true := by
        intro x hx
        obtain ⟨e, he, hex⟩ := List.mem_map.mp hx
        exact hex ▸ hv e (List.mem_cons_of_mem e0 he)
      obtain ⟨mx, hfold, hmxv, hmem, hle, hall⟩ :=
        sqlMax_fold_hyphenEnc (rest.map (fun e => e.2)) e0.2 hv0 hvrest
      refine ⟨mx, ?_, ?_, ?_⟩
      · unfold get_last_date
        have hmap : ((e0 :: rest).map (fun e => (e.1, hyphenEnc e.2))).map (fun e => e.2)
            = hyphenEnc e0.2 :: (rest.map (fun e => e.2)).map hyphenEnc := by
          simp [List.map_map, Function.comp]
        rw [if_neg (by simp), hmap]
        simp only [sqlMax]
        rw [hfold, parseHyphen_hyphenEnc mx hmxv]
      · rcases hmem with h | h
        · exact ⟨e0, by simp, h.symm⟩
        · obtain ⟨e, he, hex⟩ := List.mem_map.mp h
          exact ⟨e, List.mem_cons_of_mem e0 he, hex⟩
      · intro e he
        rcases List.mem_cons.mp he with h | h
        · subst h
          exact hle
        · exact hall e.2 (List.mem_map.mpr ⟨e, h, rfl⟩)

/-- C5 witness: a uniformly hyphen-encoded two-row dimension yields the
calendar maximum. -/
theorem C5_witness :
    ∃ dmax,
      get_last_date false
          ([((1 : Nat), (⟨2024, 1, 1⟩ : Date)), (2, ⟨2024, 3, 15⟩)].map
            (fun e => (e.1, hyphenEnc e.2)))
        = some dmax
      ∧ (∃ e ∈ [((1 : Nat), (⟨2024, 1, 1⟩ : Date)), (2, ⟨2024, 3, 15⟩)], e.2 = dmax)
      ∧ ∀ e ∈ [((1 : Nat), (⟨2024, 1, 1⟩ : Date)), (2, ⟨2024, 3, 15⟩)],
          dateKey e.2 ≤ dateKey dmax :=
  (C5_amended_hyphen_dimension_max
    [((1 : Nat), (⟨2024, 1, 1⟩ : Date)), (2, ⟨2024, 3, 15⟩)] (by decide)).2 (by decide)
